import Mathlib

/-!
Verification of the long-term memory subsystem.

Shallow embedding of `backend/app/memory_system.py` (the importance
calculator, decay model, quality gate, memory store and fallback
retriever) and proofs about it.

Conventions of the embedding:
* Python `float` scores are modelled as rationals (`ℚ`); every score in
  the source is a small decimal constant combined by `*`, `min`, `max`,
  so no floating-point rounding is observable at the granularity of the
  claims.
* `datetime` values are modelled as integer seconds; `datetime.now()`
  becomes an explicit `now : Int` argument, and
  `(now - t).days` becomes floor division by 86400 (`Int.fdiv`),
  matching `timedelta.days` semantics.
* Python strings are Lean `String`s (both are sequences of Unicode code
  points, and `len` agrees with `String.length`).  `str.lower()` is
  modelled on ASCII letters (the only case-carrying characters that
  occur in the development); `str.strip()`/`str.split()` use the
  whitespace set below.
* The `metadata` dict is opaque to the core except for its optional
  `"timestamp"` entry, so it is modelled by that projection
  (`PyMeta`): `none` = key missing or falsy, `some none` = present but
  unparsable (the `except:` path), `some (some t)` = parses to time `t`.
* The SQLite table keyed by `id` is modelled as a list of rows;
  `INSERT OR REPLACE` removes any row with the same id and appends,
  `DELETE ... WHERE id = ?` filters by id.  A failing write is modelled
  by an explicit `saveOk : Bool` argument to `store_memory`; the Python
  exception that propagates out of a failing `_save_memory_to_db` is the
  `StoreOutcome.raised` constructor.
* The LangChain / Chroma path is disabled in the modelled configuration
  (`LANGCHAIN_AVAILABLE = False`), which is the fallback system the
  spec describes.
-/

/-! ## Python string primitives -/

/-- The whitespace set of Python's `str.split()` / `str.strip()`
(`str.isspace`): ASCII whitespace, the C1 separators, and the Unicode
space separators (including U+3000, the ideographic space). -/
def pyIsSpace (c : Char) : Bool :=
  c = ' ' ∨ c = '\t' ∨ c = '\n' ∨ c = '\r' ∨
  c = Char.ofNat 0x0b ∨ c = Char.ofNat 0x0c ∨
  c = Char.ofNat 0x1c ∨ c = Char.ofNat 0x1d ∨
  c = Char.ofNat 0x1e ∨ c = Char.ofNat 0x1f ∨
  c = Char.ofNat 0x85 ∨ c = Char.ofNat 0xa0 ∨
  c = Char.ofNat 0x1680 ∨
  (Char.ofNat 0x2000 ≤ c ∧ c ≤ Char.ofNat 0x200a) ∨
  c = Char.ofNat 0x2028 ∨ c = Char.ofNat 0x2029 ∨
  c = Char.ofNat 0x202f ∨ c = Char.ofNat 0x205f ∨
  c = Char.ofNat 0x3000

/-- Python `str.strip()`: drop whitespace from both ends. -/
def pyStrip (s : String) : String :=
  String.mk (((s.data.dropWhile pyIsSpace).reverse.dropWhile pyIsSpace).reverse)

/-- Python `str.lower()` restricted to ASCII letters (no other
case-carrying characters occur in the source's data or in the inputs of
the claims). -/
def pyLowerChar (c : Char) : Char :=
  if 'A' ≤ c ∧ c ≤ 'Z' then Char.ofNat (c.toNat + 32) else c

/-- Python `str.lower()`. -/
def pyLower (s : String) : String :=
  String.mk (s.data.map pyLowerChar)

/-- Does `pat` start the list `l`? (helper for substring search). -/
def startsWithL : List Char → List Char → Bool
  | [], _ => true
  | _ :: _, [] => false
  | p :: ps, c :: cs => p == c && startsWithL ps cs

/-- Substring test on char lists (Python `pat in s` on strings). -/
def hasSubstrL (pat : List Char) : List Char → Bool
  | [] => pat.isEmpty
  | c :: rest => startsWithL pat (c :: rest) || hasSubstrL pat rest

/-- Python `pat in s` for strings. -/
def hasSubstr (pat s : String) : Bool :=
  hasSubstrL pat.data s.data

/-- Accumulator-passing core of Python `str.split()`; `acc` holds the
current token reversed. -/
def pySplitAux : List Char → List Char → List String
  | [], [] => []
  | [], acc => [String.mk acc.reverse]
  | c :: rest, acc =>
    if pyIsSpace c then
      match acc with
      | [] => pySplitAux rest []
      | _ :: _ => String.mk acc.reverse :: pySplitAux rest []
    else
      pySplitAux rest (c :: acc)

/-- Python `str.split()` (split on whitespace runs, no empty tokens). -/
def pySplit (s : String) : List String :=
  pySplitAux s.data []

/-! ## Data model (`MemoryItem`, `memory_system.py` lines 29-65) -/

/-- The projection of the caller-supplied `metadata` dict visible to the
core: its optional `"timestamp"` entry.  `none` = missing or falsy,
`some none` = present but not ISO-parsable, `some (some t)` = parses to
the instant `t` (seconds). -/
abbrev PyMeta := Option (Option Int)

/-- `MemoryItem` dataclass (`memory_system.py` lines 29-40).  The
`embedding_vector` field is always `None` in the fallback configuration
and is omitted. -/
structure MemoryItem where
  id : String
  user_id : String
  content : String
  memory_type : String
  importance_score : ℚ
  timestamp : Int
  metadata : PyMeta
deriving Repr

/-- Field-wise decidable equality (the equality test Python performs on
`MemoryItem` values is field-wise dataclass equality). -/
instance : DecidableEq MemoryItem := fun m1 m2 =>
  decidable_of_iff
    (m1.id = m2.id ∧ m1.user_id = m2.user_id ∧ m1.content = m2.content ∧
      m1.memory_type = m2.memory_type ∧
      m1.importance_score = m2.importance_score ∧
      m1.timestamp = m2.timestamp ∧ m1.metadata = m2.metadata)
    (by cases m1; cases m2; simp)

/-- `persistent_types` (`memory_system.py` line 61). -/
def persistent_types : List String :=
  ["symptoms", "goals", "medication", "personality", "work_status"]

/-- The stepwise decay factor of `MemoryItem.get_current_importance`
(`memory_system.py` lines 47-58), as a function of `days_ago`. -/
def decayFactorRaw (days : Int) : ℚ :=
  if days = 0 then 1
  else if days ≤ 1 then 0.95
  else if days ≤ 7 then 0.85
  else if days ≤ 30 then 0.65
  else if days ≤ 90 then 0.45
  else 0.25

/-- `MemoryItem.get_current_importance` (`memory_system.py` lines
42-65): time-decayed importance, with the decay factor floored at 0.7
for persistent memory types. -/
def MemoryItem.get_current_importance (now : Int) (m : MemoryItem) : ℚ :=
  let days_ago : Int := (now - m.timestamp).fdiv 86400
  let decay_factor := decayFactorRaw days_ago
  let decay_factor :=
    if persistent_types.contains m.memory_type then max decay_factor 0.7
    else decay_factor
  m.importance_score * decay_factor

/-! ## Importance calculator (`MemoryImportanceCalculator`, lines 68-203) -/

/-- `TYPE_IMPORTANCE_WEIGHTS` (lines 72-88), as a total function with
the `dict.get(..., 0.5)` default of line 106. -/
def TYPE_IMPORTANCE_WEIGHTS (memory_type : String) : ℚ :=
  if memory_type = "emotional_state" then 0.9
  else if memory_type = "symptoms" then 0.8
  else if memory_type = "goals" then 0.7
  else if memory_type = "triggers" then 0.8
  else if memory_type = "coping_methods" then 0.6
  else if memory_type = "support_system" then 0.5
  else if memory_type = "work_status" then 0.7
  else if memory_type = "medication" then 0.8
  else if memory_type = "concerns" then 0.9
  else if memory_type = "experiences" then 0.6
  else if memory_type = "personality" then 0.4
  else if memory_type = "daily_routine" then 0.3
  else if memory_type = "family" then 0.4
  else if memory_type = "age" then 0.2
  else if memory_type = "location" then 0.1
  else 0.5

/-- `EMOTIONAL_KEYWORDS["high"]` (line 92). -/
def EMOTIONAL_KEYWORDS_high : List String :=
  ["不安", "苦しい", "辛い", "死にたい", "絶望", "パニック", "発作", "限界"]

/-- `EMOTIONAL_KEYWORDS["medium"]` (line 93). -/
def EMOTIONAL_KEYWORDS_medium : List String :=
  ["心配", "悩み", "困った", "疲れた", "ストレス", "落ち込み", "憂鬱"]

/-- `EMOTIONAL_KEYWORDS["low"]` (line 94). -/
def EMOTIONAL_KEYWORDS_low : List String :=
  ["気になる", "少し", "ちょっと", "時々"]

/-- `sum(1 for word in ws if word in contentLower)` (lines 150-152). -/
def keywordCount (ws : List String) (contentLower : String) : Nat :=
  (ws.filter (fun w => hasSubstr w contentLower)).length

/-- `_calculate_emotional_importance` (lines 145-168). -/
def calculate_emotional_importance (content : String) : ℚ :=
  let content_lower := pyLower content
  let high_count := keywordCount EMOTIONAL_KEYWORDS_high content_lower
  let medium_count := keywordCount EMOTIONAL_KEYWORDS_medium content_lower
  let low_count := keywordCount EMOTIONAL_KEYWORDS_low content_lower
  if low_count > 0 then
    if high_count > 0 then 0.6
    else if medium_count > 0 then 0.4
    else 0.3
  else if high_count > 0 then 0.9
  else if medium_count > 0 then 0.6
  else 0.5

/-- `_calculate_temporal_importance` (lines 170-190), with the
`metadata.get("timestamp")` lookup already performed: the missing/falsy
and unparsable (`except:`) cases both yield 0.5. -/
def calculate_temporal_importance (now : Int) (tsField : PyMeta) : ℚ :=
  match tsField with
  | none => 0.5
  | some none => 0.5
  | some (some ts) =>
    let days_ago : Int := (now - ts).fdiv 86400
    if days_ago ≤ 1 then 1
    else if days_ago ≤ 7 then 0.8
    else if days_ago ≤ 30 then 0.6
    else 0.3

/-- `_calculate_length_importance` (lines 192-203). -/
def calculate_length_importance (content : String) : ℚ :=
  if content.length > 100 then 0.8
  else if content.length > 50 then 0.6
  else if content.length > 20 then 0.4
  else 0.2

/-- `calculate_importance` (lines 97-143).  The `multiplier *= ...`
accumulator of the source is the product of one factor per `if/elif`
group, in the source's branch order; note the source checks
`emotional_score <= 0.4` *before* `emotional_score <= 0.3`
(lines 126-129). -/
def calculate_importance (now : Int) (content memory_type : String)
    (metadata : PyMeta) : ℚ :=
  let base_score := TYPE_IMPORTANCE_WEIGHTS memory_type
  let emotional_score := calculate_emotional_importance content
  let temporal_score := calculate_temporal_importance now metadata
  let length_score := calculate_length_importance content
  let m1 : ℚ :=
    if emotional_score ≥ 0.9 then 1.5
    else if emotional_score ≥ 0.6 then 1.2
    else if emotional_score ≤ 0.4 then 0.7
    else if emotional_score ≤ 0.3 then 0.5
    else 1
  let m2 : ℚ :=
    if temporal_score ≥ 0.8 ∧ emotional_score ≥ 0.5 then 1.3
    else if temporal_score ≤ 0.3 then 0.6
    else 1
  let m3 : ℚ := if length_score ≥ 0.8 then 1.1 else 1
  let final_score := base_score * (m1 * m2 * m3)
  min (max final_score 0.1) 1

/-! ## Quality gate (`_is_quality_memory`, lines 335-369) and
`_similarity_ratio` (lines 371-397) -/

/-- `_similarity_ratio` (lines 371-397): substring ratio or Jaccard word
similarity, case-insensitively on stripped strings. -/
def similarity_value (s1 s2 : String) : ℚ :=
  let s1_lower := pyStrip (pyLower s1)
  let s2_lower := pyStrip (pyLower s2)
  if s1_lower.data.isEmpty || s2_lower.data.isEmpty then 0
  else
    let longer : ℚ := max s1_lower.length s2_lower.length
    let shorter : ℚ := min s1_lower.length s2_lower.length
    if hasSubstr s1_lower s2_lower || hasSubstr s2_lower s1_lower then
      shorter / longer
    else
      let words1 := (pySplit s1_lower).dedup
      let words2 := (pySplit s2_lower).dedup
      if words1.isEmpty || words2.isEmpty then 0
      else
        let intersection := (words1.filter (fun w => words2.contains w)).length
        let union := ((words1 ++ words2).dedup).length
        if union > 0 then (intersection : ℚ) / (union : ℚ) else 0

/-- `generic_patterns` (line 365). -/
def generic_patterns : List String :=
  ["はい", "いいえ", "そうです", "ありがとう", "よろしく"]

/-- The duplicate-check loop of `_is_quality_memory` (lines 350-362):
first rejection reason produced while walking the user's existing
records, `none` if the loop falls through. -/
def dupReason (content memory_type : String) : List MemoryItem → Option String
  | [] => none
  | r :: rest =>
    if pyStrip r.content = pyStrip content then some "完全重複"
    else if r.memory_type = memory_type ∧ content.length > 20 ∧
        similarity_value r.content content > 0.9 then
      some "類似重複（90%以上）"
    else dupReason content memory_type rest

/-- The per-user in-memory collections (`self.memory_items`, a dict
user_id → list, modelled as a total function defaulting to `[]`) and
the SQLite `memories` table (modelled as its list of rows). -/
structure MemState where
  memory_items : String → List MemoryItem
  db : List MemoryItem

/-- The empty system state (fresh database, no users). -/
def initState : MemState := { memory_items := fun _ => [], db := [] }

/-- `_is_quality_memory` (lines 335-369): `(is_valid, reason)`. -/
def is_quality_memory (s : MemState) (content memory_type user_id : String) :
    Bool × String :=
  if (pyStrip content).length < 5 then
    (false, "短すぎる（" ++ toString content.length ++ "文字 < 5文字）")
  else if (pySplit content).length = 1 ∧ content.length < 10 then
    (false, "単一単語のみ")
  else
    match dupReason content memory_type (s.memory_items user_id) with
    | some reason => (false, reason)
    | none =>
      if generic_patterns.contains (pyStrip content) then
        (false, "一般的すぎる表現")
      else (true, "OK")

/-! ## Memory store (`store_memory` lines 399-468, `_save_memory_to_db`
lines 294-316, `_manage_memory_limit` lines 534-556) -/

/-- Outcome of a call to `store_memory`: the returned id, or a
propagated exception from the persistence layer. -/
inductive StoreOutcome where
  | returned (id : String)
  | raised
deriving DecidableEq, Repr

/-- `_save_memory_to_db` (lines 294-316): `INSERT OR REPLACE` keyed by
`id`. -/
def save_memory_to_db (db : List MemoryItem) (m : MemoryItem) : List MemoryItem :=
  (db.filter (fun r => r.id ≠ m.id)) ++ [m]

/-- The eviction sort key comparison of `_manage_memory_limit` line 544:
`(importance_score, timestamp)` compared lexicographically;
`evictLe a b` means the key of `a` is ≤ the key of `b`. -/
def evictLe (a b : MemoryItem) : Bool :=
  a.importance_score < b.importance_score ∨
    (a.importance_score = b.importance_score ∧ a.timestamp ≤ b.timestamp)

/-- Stable insertion into a descending-sorted list: `x` is placed before
the first element whose key is ≤ `x`'s (so among equal keys the newly
inserted element comes first). -/
def insertDesc (le_ : α → α → Bool) (x : α) : List α → List α
  | [] => [x]
  | y :: ys => if le_ y x then x :: y :: ys else y :: insertDesc le_ x ys

/-- Stable descending sort, modelling Python's stable
`list.sort(key=..., reverse=True)`: a stable sort is extensionally
determined by the key order, so insertion sort is a faithful model of
Timsort's result. -/
def sortDesc (le_ : α → α → Bool) (l : List α) : List α :=
  l.foldr (insertDesc le_) []

/-- `_manage_memory_limit` (lines 534-556): when the user's collection
exceeds `max_memories`, sort it descending by
`(importance_score, timestamp)`, keep the first `max_memories` records
and delete the rest from the SQLite table. -/
def manage_memory_limit (s : MemState) (user_id : String) (max_memories : Nat) :
    MemState :=
  let memories := s.memory_items user_id
  if memories.length ≤ max_memories then s
  else
    let sorted := sortDesc evictLe memories
    let kept := sorted.take max_memories
    let removed := sorted.drop max_memories
    { memory_items := fun u => if u = user_id then kept else s.memory_items u,
      db := removed.foldl (fun d r => d.filter (fun x => x.id ≠ r.id)) s.db }

/-- The `MemoryItem` built by `store_memory` (lines 423-433): id
`f"{user_id}_{datetime.now().isoformat()}_{memory_type}"` with the
current instant rendered by `toString`. -/
def newMemoryItem (user_id content memory_type : String) (metadata : PyMeta)
    (now : Int) : MemoryItem :=
  { id := user_id ++ "_" ++ toString now ++ "_" ++ memory_type,
    user_id := user_id, content := content, memory_type := memory_type,
    importance_score := calculate_importance now content memory_type metadata,
    timestamp := now, metadata := metadata }

/-- The post-admission tail of `store_memory` (lines 435-468): append
the item to the user's collection, write it to SQLite (raising if the
write fails, with the in-memory append already performed), then run the
eviction pass and return the new id. -/
def insert_admitted (s : MemState) (item : MemoryItem) (saveOk : Bool) :
    StoreOutcome × MemState :=
  let s1 : MemState :=
    { s with memory_items := fun u =>
        if u = item.user_id then s.memory_items item.user_id ++ [item]
        else s.memory_items u }
  if saveOk = false then (StoreOutcome.raised, s1)
  else
    let s2 : MemState := { s1 with db := save_memory_to_db s1.db item }
    let s3 := manage_memory_limit s2 item.user_id 200
    (StoreOutcome.returned item.id, s3)

/-- `store_memory` (lines 399-468): quality gate, importance threshold
0.15, then `insert_admitted`.  Rejections return the empty-string
sentinel and leave the state untouched. -/
def store_memory (s : MemState) (user_id content memory_type : String)
    (metadata : PyMeta) (now : Int) (saveOk : Bool) : StoreOutcome × MemState :=
  if (is_quality_memory s content memory_type user_id).fst = false then
    (StoreOutcome.returned "", s)
  else
    let importance_score := calculate_importance now content memory_type metadata
    if importance_score < 0.15 then (StoreOutcome.returned "", s)
    else insert_admitted s (newMemoryItem user_id content memory_type metadata now) saveOk

/-! ## Fallback retriever (`_fallback_memory_search`, lines 505-532) -/

/-- The keyword score of lines 518-522: the number of query tokens
(with multiplicity) occurring as substrings of the lowered content. -/
def keywordScore (query_words : List String) (content_lower : String) : Nat :=
  (query_words.filter (fun w => hasSubstr w content_lower)).length

/-- The rank key the code actually sorts by (lines 519-525):
keyword score times the *stored* `importance_score`. -/
def rankKey (query : String) (m : MemoryItem) : ℚ :=
  (keywordScore (pySplit (pyLower query)) (pyLower m.content) : ℚ) *
    m.importance_score

/-- The retrieval sort comparison of line 531 (`key=lambda x: x[0]`):
scores only. -/
def scoreLe (p q : ℚ × MemoryItem) : Bool := p.1 ≤ q.1

/-- `_fallback_memory_search` (lines 505-532). -/
def fallback_memory_search (s : MemState) (user_id query : String)
    (limit : Nat) : List MemoryItem :=
  let query_words := pySplit (pyLower query)
  let scored := (s.memory_items user_id).filterMap (fun m =>
    let score : ℚ := (keywordScore query_words (pyLower m.content) : ℚ) *
      m.importance_score
    if score > 0 then some (score, m) else none)
  let sorted := sortDesc scoreLe scored
  (sorted.take limit).map Prod.snd

/-- The rank key claimed by the spec for the fallback retriever:
keyword score times the time-decayed `get_current_importance` (not the
stored base importance). -/
def claimRankKey (now : Int) (query : String) (m : MemoryItem) : ℚ :=
  (keywordScore (pySplit (pyLower query)) (pyLower m.content) : ℚ) *
    m.get_current_importance now

/-! ## C6: `calculate_importance` is bounded in [0.1, 1.0] -/

/-- C6: for every non-empty content, every category string (recognized
or not) and every metadata, `calculate_importance` returns a value in
[0.1, 1.0].  (It is a total function of its arguments, so it cannot
raise.) -/
theorem calculate_importance_bounded (now : Int) (content memory_type : String)
    (metadata : PyMeta) (_h : content ≠ "") :
    1/10 ≤ calculate_importance now content memory_type metadata ∧
      calculate_importance now content memory_type metadata ≤ 1 := by
  unfold calculate_importance
  constructor
  · exact le_min (le_trans (by norm_num) (le_max_right _ _)) (by norm_num)
  · exact min_le_right _ _

/-- Witness for C6 at a concrete non-empty input. -/
theorem calculate_importance_bounded_witness :
    ("少し心配です" : String) ≠ "" ∧
      (1/10 ≤ calculate_importance 0 "少し心配です" "concerns" none ∧
        calculate_importance 0 "少し心配です" "concerns" none ≤ 1) :=
  ⟨by decide, calculate_importance_bounded 0 "少し心配です" "concerns" none (by decide)⟩

/-- A concrete 365-day-old `symptoms` record for the C7 witness. -/
def exampleSymptomItem : MemoryItem :=
  { id := "m1", user_id := "u1", content := "頭痛がある", memory_type := "symptoms",
    importance_score := 0.8, timestamp := 0, metadata := none }

/-! ## C7: persistent categories keep at least 70% of base importance -/

/-- C7: for every record whose category is in the persistent set and
every age (the `now` instant is arbitrary, hence so is the age in days,
including 365 days), the decay factor is floored at 0.7, so the current
importance is at least `0.7 * base_importance`. -/
theorem persistent_decay_floor (now : Int) (m : MemoryItem)
    (hp : persistent_types.contains m.memory_type = true)
    (hnn : 0 ≤ m.importance_score) :
    0.7 * m.importance_score ≤ m.get_current_importance now := by
  unfold MemoryItem.get_current_importance
  simp only [hp, if_true]
  calc (0.7 : ℚ) * m.importance_score
      = m.importance_score * 0.7 := by ring
    _ ≤ m.importance_score *
          max (decayFactorRaw ((now - m.timestamp).fdiv 86400)) 0.7 :=
        mul_le_mul_of_nonneg_left (le_max_right _ _) hnn

/-- Witness for C7: a `symptoms` record that is exactly 365 days old. -/
theorem persistent_decay_floor_witness :
    persistent_types.contains exampleSymptomItem.memory_type = true ∧
    (0 : ℚ) ≤ exampleSymptomItem.importance_score ∧
    0.7 * exampleSymptomItem.importance_score ≤
      exampleSymptomItem.get_current_importance (365 * 86400) :=
  ⟨by decide, by with_unfolding_all decide,
    persistent_decay_floor (365 * 86400) _ (by decide)
      (by with_unfolding_all decide)⟩

/-! ## C3: the emotional-multiplier branch order -/

/-- Modelled from the spec: `calculate_importance` with the branch order
the spec states for the emotional multiplier — `if emotional ≥ 0.9 then
×1.5; elif emotional ≥ 0.6 then ×1.2; elif emotional ≤ 0.3 then ×0.5;
elif emotional ≤ 0.4 then ×0.7` — i.e. with the `≤ 0.3` test *before*
the `≤ 0.4` test; everything else is as in the source. -/
def calculate_importance_claimOrder (now : Int) (content memory_type : String)
    (metadata : PyMeta) : ℚ :=
  let base_score := TYPE_IMPORTANCE_WEIGHTS memory_type
  let emotional_score := calculate_emotional_importance content
  let temporal_score := calculate_temporal_importance now metadata
  let length_score := calculate_length_importance content
  let m1 : ℚ :=
    if emotional_score ≥ 0.9 then 1.5
    else if emotional_score ≥ 0.6 then 1.2
    else if emotional_score ≤ 0.3 then 0.5
    else if emotional_score ≤ 0.4 then 0.7
    else 1
  let m2 : ℚ :=
    if temporal_score ≥ 0.8 ∧ emotional_score ≥ 0.5 then 1.3
    else if temporal_score ≤ 0.3 then 0.6
    else 1
  let m3 : ℚ := if length_score ≥ 0.8 then 1.1 else 1
  let final_score := base_score * (m1 * m2 * m3)
  min (max final_score 0.1) 1

/-- C3: the source tests `emotional_score <= 0.4` before
`emotional_score <= 0.3`, so the ×0.5 branch is unreachable.  At the
failing input "少し気になる" (hedge-only, emotional intensity 0.3,
category `personality`, base weight 0.4) the code applies ×0.7 and
returns 0.28, while the branch order stated by the spec would apply
×0.5 and return 0.2. -/
theorem emotional_low_branch_unreachable :
    calculate_emotional_importance "少し気になる" = 0.3 ∧
    calculate_importance 0 "少し気になる" "personality" none = 0.28 ∧
    calculate_importance_claimOrder 0 "少し気になる" "personality" none = 0.2 ∧
    (0.28 : ℚ) ≠ 0.2 := by
  refine ⟨?_, ?_, ?_, ?_⟩ <;> with_unfolding_all decide

/-! ## C4: the exact-duplicate rule is case-sensitive -/

/-- An existing record whose content differs from a candidate only in
letter case. -/
def helloItem : MemoryItem :=
  { id := "h1", user_id := "u1", content := "Hello World", memory_type := "goals",
    importance_score := 0.7, timestamp := 0, metadata := none }

/-- A state holding `helloItem` for user "u1". -/
def stateWithHello : MemState :=
  { memory_items := fun u => if u = "u1" then [helloItem] else [],
    db := [helloItem] }

/-- C4 counterexample: "hello world" equals the existing record
"Hello World" after trimming up to letter case, yet the quality gate
accepts it ("OK") instead of rejecting it as an exact duplicate — the
check `existing.content.strip() == content.strip()` is case-sensitive. -/
theorem exact_duplicate_not_case_insensitive :
    pyLower (pyStrip "hello world") = pyLower (pyStrip helloItem.content) ∧
    is_quality_memory stateWithHello "hello world" "family" "u1" = (true, "OK") := by
  constructor <;> decide

/-- If some record in the list matches the candidate exactly (trimmed,
case-sensitively), the duplicate-check loop reports a rejection. -/
theorem dupReason_isSome_of_exact {content memory_type : String}
    {l : List MemoryItem} (h : ∃ r ∈ l, pyStrip r.content = pyStrip content) :
    (dupReason content memory_type l).isSome = true := by
  induction l with
  | nil => simp at h
  | cons r rest ih =>
    unfold dupReason
    split
    · simp
    · split
      · simp
      · rcases h with ⟨x, hx, hxeq⟩
        rcases List.mem_cons.mp hx with rfl | hx
        · exact absurd hxeq (by assumption)
        · exact ih ⟨x, hx, hxeq⟩

/-- C4 amended: the exact-duplicate rule is case-*sensitive* after
trimming: a candidate that passes the length and single-token checks
and whose trimmed text equals an existing record's trimmed content
exactly is rejected by the gate. -/
theorem exact_duplicate_rejected (s : MemState)
    (content memory_type user_id : String)
    (h1 : ¬ (pyStrip content).length < 5)
    (h2 : ¬ ((pySplit content).length = 1 ∧ content.length < 10))
    (h3 : ∃ r ∈ s.memory_items user_id, pyStrip r.content = pyStrip content) :
    (is_quality_memory s content memory_type user_id).fst = false := by
  unfold is_quality_memory
  rw [if_neg h1, if_neg h2]
  rcases Option.isSome_iff_exists.mp (dupReason_isSome_of_exact h3) with ⟨reason, hr⟩
  rw [hr]

/-- Witness for the amended C4 at a concrete input (the candidate also
carries surrounding whitespace, exercising the trimming). -/
theorem exact_duplicate_rejected_witness :
    (¬ (pyStrip " Hello World ").length < 5) ∧
    (¬ ((pySplit " Hello World ").length = 1 ∧ (" Hello World " : String).length < 10)) ∧
    (∃ r ∈ stateWithHello.memory_items "u1",
        pyStrip r.content = pyStrip " Hello World ") ∧
    (is_quality_memory stateWithHello " Hello World " "family" "u1").fst = false :=
  ⟨by decide, by decide,
    ⟨helloItem, by with_unfolding_all decide, by decide⟩,
    exact_duplicate_rejected stateWithHello " Hello World " "family" "u1"
      (by decide) (by decide)
      ⟨helloItem, by with_unfolding_all decide, by decide⟩⟩

/-! ## C5: empty content vs empty user id -/

/-- C5 counterexample: a store call with an *empty user id* but
admissible content is not rejected at all — the gate never inspects
`user_id` — so the claim "empty `user_id` … is rejected by Quality Gate
rule 1" is false: the call returns a non-empty id and the record is
stored under the user `""`. -/
theorem empty_user_id_not_rejected :
    (store_memory initState "" "memo number one" "goals" none 0 true).fst =
      StoreOutcome.returned "_0_goals" ∧
    ("_0_goals" : String) ≠ "" ∧
    (store_memory initState "" "memo number one" "goals" none 0 true).snd.memory_items ""
      ≠ [] := by
  refine ⟨?_, ?_, ?_⟩ <;> with_unfolding_all decide

/-- C5 amended: a store call with content of length 0 is rejected by
Quality Gate rule 1 (the too-short check), returns the empty sentinel
and leaves the state untouched, for any user id, category, metadata,
instant and persistence behaviour — it never raises.  (An empty
`user_id` by itself is not checked; see the counterexample.) -/
theorem empty_content_rejected (s : MemState) (user_id memory_type : String)
    (metadata : PyMeta) (now : Int) (saveOk : Bool) :
    store_memory s user_id "" memory_type metadata now saveOk =
      (StoreOutcome.returned "", s) := by
  unfold store_memory
  rw [if_pos]
  unfold is_quality_memory
  rw [if_pos (by decide)]

/-! ## C2: a failed persistence write is not rolled back -/

/-- C2 counterexample: on a failing durable write the exception
propagates (`raised`), yet the candidate record *is* left in the
in-memory collection while the database is unchanged — the in-memory
state diverges from the persisted state. -/
theorem failed_write_leaves_item_in_memory :
    (store_memory initState "u1" "memo number one" "goals" none 0 false).fst =
      StoreOutcome.raised ∧
    (store_memory initState "u1" "memo number one" "goals" none 0 false).snd.memory_items "u1" =
      [newMemoryItem "u1" "memo number one" "goals" none 0] ∧
    (store_memory initState "u1" "memo number one" "goals" none 0 false).snd.db = [] := by
  refine ⟨?_, ?_, ?_⟩ <;> with_unfolding_all decide

/-- C2 amended: `store_memory` appends to the in-memory collection
*before* the durable write, so when the write fails on an admitted
candidate the call raises with the record already appended to the
user's in-memory collection and the database unchanged (the two states
diverge). -/
theorem failed_write_appends_before_raise (s : MemState)
    (user_id content memory_type : String) (metadata : PyMeta) (now : Int)
    (hq : (is_quality_memory s content memory_type user_id).fst = true)
    (himp : ¬ calculate_importance now content memory_type metadata < 0.15) :
    (store_memory s user_id content memory_type metadata now false).fst =
      StoreOutcome.raised ∧
    (store_memory s user_id content memory_type metadata now false).snd.memory_items
        user_id =
      s.memory_items user_id ++ [newMemoryItem user_id content memory_type metadata now] ∧
    (store_memory s user_id content memory_type metadata now false).snd.db = s.db := by
  unfold store_memory
  rw [if_neg (by simp [hq]), if_neg himp]
  unfold insert_admitted
  rw [if_pos rfl]
  refine ⟨rfl, ?_, rfl⟩
  simp [newMemoryItem]

/-- Witness for the amended C2 at a concrete admitted input. -/
theorem failed_write_appends_before_raise_witness :
    (is_quality_memory initState "memo number one" "goals" "u1").fst = true ∧
    (¬ calculate_importance 0 "memo number one" "goals" none < 0.15) ∧
    ((store_memory initState "u1" "memo number one" "goals" none 0 false).fst =
        StoreOutcome.raised ∧
      (store_memory initState "u1" "memo number one" "goals" none 0 false).snd.memory_items
          "u1" =
        initState.memory_items "u1" ++ [newMemoryItem "u1" "memo number one" "goals" none 0] ∧
      (store_memory initState "u1" "memo number one" "goals" none 0 false).snd.db =
        initState.db) :=
  ⟨by decide, by with_unfolding_all decide,
    failed_write_appends_before_raise initState "u1" "memo number one" "goals" none 0
      (by decide) (by with_unfolding_all decide)⟩

/-! ## C10: spaceless contents of 5-9 characters are always rejected -/

/-- If no character of `l` satisfies `p`, `dropWhile p` keeps `l`. -/
theorem dropWhile_eq_self_of_none {p : Char → Bool} {l : List Char}
    (h : ∀ c ∈ l, p c = false) : l.dropWhile p = l := by
  cases l with
  | nil => rfl
  | cons c cs => simp [List.dropWhile_cons, h c (List.mem_cons_self c cs)]

/-- A string with no whitespace characters strips to itself. -/
theorem pyStrip_eq_self {content : String}
    (h : ∀ c ∈ content.data, pyIsSpace c = false) : pyStrip content = content := by
  unfold pyStrip
  rw [dropWhile_eq_self_of_none h,
    dropWhile_eq_self_of_none (fun c hc => h c (List.mem_reverse.mp hc)),
    List.reverse_reverse]

/-- `pySplitAux` on a whitespace-free remainder flushes the accumulator
and remainder as one token. -/
theorem pySplitAux_no_space {l : List Char} (h : ∀ c ∈ l, pyIsSpace c = false) :
    ∀ acc : List Char, acc ≠ [] →
      pySplitAux l acc = [String.mk (acc.reverse ++ l)] := by
  induction l with
  | nil =>
    intro acc hacc
    cases acc with
    | nil => exact absurd rfl hacc
    | cons a as => simp [pySplitAux]
  | cons c cs ih =>
    intro acc hacc
    have hc : pyIsSpace c = false := h c (List.mem_cons_self c cs)
    have hcs : ∀ x ∈ cs, pyIsSpace x = false :=
      fun x hx => h x (List.mem_cons_of_mem c hx)
    rw [show pySplitAux (c :: cs) acc =
        pySplitAux cs (c :: acc) from by simp [pySplitAux, hc],
      ih hcs (c :: acc) (by simp)]
    simp

/-- A non-empty string with no whitespace splits into the single token
equal to itself. -/
theorem pySplit_single {content : String}
    (h : ∀ c ∈ content.data, pyIsSpace c = false) (hne : content.data ≠ []) :
    pySplit content = [content] := by
  unfold pySplit
  cases hd : content.data with
  | nil => exact absurd hd hne
  | cons c cs =>
    have hc : pyIsSpace c = false := h c (by rw [hd]; exact List.mem_cons_self c cs)
    have hcs : ∀ x ∈ cs, pyIsSpace x = false :=
      fun x hx => h x (by rw [hd]; exact List.mem_cons_of_mem c hx)
    rw [show pySplitAux (c :: cs) [] = pySplitAux cs [c] from by simp [pySplitAux, hc],
      pySplitAux_no_space hcs [c] (by simp)]
    have : String.mk content.data = content := rfl
    simp only [List.reverse_cons, List.reverse_nil, List.nil_append,
      List.singleton_append, ← hd, this]

/-- C10: any candidate content with no whitespace characters, trimmed
length ≥ 5 and raw length < 10 is rejected by the quality gate as a
single token ("単一単語のみ"), regardless of category, user, or the
existing records (and hence before any importance scoring). -/
theorem spaceless_short_content_rejected (s : MemState)
    (content memory_type user_id : String)
    (hns : ∀ c ∈ content.data, pyIsSpace c = false)
    (h5 : 5 ≤ (pyStrip content).length)
    (h10 : content.length < 10) :
    is_quality_memory s content memory_type user_id = (false, "単一単語のみ") := by
  have hne : content.data ≠ [] := by
    intro hnil
    rw [pyStrip_eq_self hns] at h5
    have : content.length = 0 := by
      show content.data.length = 0
      rw [hnil]; rfl
    omega
  unfold is_quality_memory
  rw [if_neg (by omega), if_pos ⟨by rw [pySplit_single hns hne]; rfl, h10⟩]

/-- Witness for C10: the 7-character spaceless string "abcdefg". -/
theorem spaceless_short_content_rejected_witness :
    (∀ c ∈ ("abcdefg" : String).data, pyIsSpace c = false) ∧
    5 ≤ (pyStrip "abcdefg").length ∧ ("abcdefg" : String).length < 10 ∧
    is_quality_memory initState "abcdefg" "goals" "u1" = (false, "単一単語のみ") :=
  ⟨by decide, by decide, by decide,
    spaceless_short_content_rejected initState "abcdefg" "goals" "u1"
      (by decide) (by decide) (by decide)⟩

/-! ## Generic facts about the stable descending sort -/

/-- Membership through `insertDesc`. -/
theorem mem_insertDesc {le_ : α → α → Bool} {x a : α} :
    ∀ {l : List α}, a ∈ insertDesc le_ x l ↔ a = x ∨ a ∈ l := by
  intro l
  induction l with
  | nil => simp [insertDesc]
  | cons y ys ih =>
    unfold insertDesc
    split
    · simp [List.mem_cons]
    · simp only [List.mem_cons, ih]
      tauto

/-- Membership through `sortDesc`. -/
theorem mem_sortDesc {le_ : α → α → Bool} {a : α} :
    ∀ {l : List α}, a ∈ sortDesc le_ l ↔ a ∈ l := by
  intro l
  induction l with
  | nil => simp [sortDesc]
  | cons y ys ih =>
    show a ∈ insertDesc le_ y (sortDesc le_ ys) ↔ _
    rw [mem_insertDesc]
    simp [ih]

/-- `insertDesc` adds exactly one element. -/
theorem length_insertDesc {le_ : α → α → Bool} {x : α} :
    ∀ {l : List α}, (insertDesc le_ x l).length = l.length + 1 := by
  intro l
  induction l with
  | nil => rfl
  | cons y ys ih =>
    unfold insertDesc
    split
    · rfl
    · simp [ih]

/-- `sortDesc` preserves length. -/
theorem length_sortDesc {le_ : α → α → Bool} :
    ∀ {l : List α}, (sortDesc le_ l).length = l.length := by
  intro l
  induction l with
  | nil => rfl
  | cons y ys ih =>
    show (insertDesc le_ y (sortDesc le_ ys)).length = _
    rw [length_insertDesc, ih]
    rfl

/-- Inserting into a sorted list preserves sortedness-with-stability:
in the result, every earlier element has a ≥ key, and among equal keys
the relation `R` (the order inherited from the original list, with the
inserted element `R`-before everything) holds. -/
theorem pairwise_insertDesc {le_ : α → α → Bool} {R : α → α → Prop}
    (htot : ∀ a b, le_ a b = true ∨ le_ b a = true)
    (htr : ∀ a b c, le_ a b = true → le_ b c = true → le_ a c = true)
    {x : α} {l : List α} (hx : ∀ y ∈ l, R x y)
    (hl : l.Pairwise fun a b => le_ b a = true ∧ (le_ a b = true → R a b)) :
    (insertDesc le_ x l).Pairwise
      fun a b => le_ b a = true ∧ (le_ a b = true → R a b) := by
  induction l with
  | nil => simp [insertDesc]
  | cons y ys ih =>
    rcases List.pairwise_cons.mp hl with ⟨hy, hys⟩
    unfold insertDesc
    split
    case isTrue hle =>
      refine List.pairwise_cons.mpr ⟨?_, hl⟩
      intro z hz
      rcases List.mem_cons.mp hz with rfl | hz
      · exact ⟨hle, fun _ => hx z (List.mem_cons_self _ _)⟩
      · exact ⟨htr z y x (hy z hz).1 hle,
          fun _ => hx z (List.mem_cons_of_mem _ hz)⟩
    case isFalse hle =>
      refine List.pairwise_cons.mpr
        ⟨?_, ih (fun z hz => hx z (List.mem_cons_of_mem _ hz)) hys⟩
      intro z hz
      rcases mem_insertDesc.mp hz with rfl | hz
      · rcases htot y z with h | h
        · exact absurd h hle
        · exact ⟨h, fun hyx => absurd hyx hle⟩
      · exact hy z hz

/-- The stable descending sort of a list that is `Pairwise R` is
descending by key, and among equal keys preserves the original order
`R` (stability). -/
theorem pairwise_sortDesc {le_ : α → α → Bool} {R : α → α → Prop}
    (htot : ∀ a b, le_ a b = true ∨ le_ b a = true)
    (htr : ∀ a b c, le_ a b = true → le_ b c = true → le_ a c = true)
    {l : List α} (hl : l.Pairwise R) :
    (sortDesc le_ l).Pairwise
      fun a b => le_ b a = true ∧ (le_ a b = true → R a b) := by
  induction hl with
  | nil => exact List.Pairwise.nil
  | cons hy hys ih =>
    exact pairwise_insertDesc htot htr
      (fun z hz => hy z (mem_sortDesc.mp hz)) ih

/-- `filterMap` maps a pairwise relation through the partial function. -/
theorem pairwise_filterMap_of {f : α → Option β} {R : α → α → Prop}
    {S : β → β → Prop}
    (H : ∀ a b, R a b → ∀ p q, f a = some p → f b = some q → S p q) :
    ∀ {l : List α}, l.Pairwise R → (l.filterMap f).Pairwise S := by
  intro l hl
  induction hl with
  | nil => exact List.Pairwise.nil
  | @cons a as ha _ ih =>
    rw [List.filterMap_cons]
    split
    · exact ih
    case h_2 p heq =>
      refine List.pairwise_cons.mpr ⟨?_, ih⟩
      intro q hq
      rcases List.mem_filterMap.mp hq with ⟨b, hb, hfb⟩
      exact H a b (ha b hb) p q heq hfb

/-! ## C1: the fallback retriever's rank key and ordering -/

/-- Retrieval counterexample data: an old but high-base-importance
record.  100 days old at `retrNow = 8640000` seconds, so its decayed
importance is `0.9 * 0.25`. -/
def retrItem1 : MemoryItem :=
  { id := "r1", user_id := "u2", content := "hello alpha", memory_type := "family",
    importance_score := 0.9, timestamp := 0, metadata := none }

/-- A fresh, lower-base-importance record (60 seconds old at `retrNow`:
timestamp 8640000 - 60). -/
def retrItem2 : MemoryItem :=
  { id := "r2", user_id := "u2", content := "hello beta", memory_type := "family",
    importance_score := 0.5, timestamp := 8639940, metadata := none }

/-- A record like `retrItem2` but created more recently (30 seconds
old): it ties with `retrItem2` on both rank keys. -/
def retrItem3 : MemoryItem :=
  { id := "r3", user_id := "u2", content := "hello gamma", memory_type := "family",
    importance_score := 0.5, timestamp := 8639970, metadata := none }

/-- State holding the three retrieval records, in insertion order. -/
def retrState : MemState :=
  { memory_items := fun u => if u = "u2" then [retrItem1, retrItem2, retrItem3] else [],
    db := [retrItem1, retrItem2, retrItem3] }

/-- The instant of the retrieval call: 100 days after `retrItem1` was
created. -/
def retrNow : Int := 8640000

set_option maxRecDepth 2000 in
/-- C1 counterexample: the code returns `[retrItem1, retrItem2,
retrItem3]`, but under the claimed rank key (keyword score × *decayed*
importance) `retrItem1` ranks strictly below the other two, and the
tied pair `retrItem2`/`retrItem3` is returned in insertion order, not
more-recent-first — so the output is not ordered as the claim states. -/
theorem fallback_search_ignores_decay :
    fallback_memory_search retrState "u2" "hello" 10 =
      [retrItem1, retrItem2, retrItem3] ∧
    claimRankKey retrNow "hello" retrItem1 < claimRankKey retrNow "hello" retrItem2 ∧
    claimRankKey retrNow "hello" retrItem2 = claimRankKey retrNow "hello" retrItem3 ∧
    retrItem2.timestamp < retrItem3.timestamp ∧
    ¬ (fallback_memory_search retrState "u2" "hello" 10).Pairwise
        (fun a b => claimRankKey retrNow "hello" b < claimRankKey retrNow "hello" a ∨
          (claimRankKey retrNow "hello" a = claimRankKey retrNow "hello" b ∧
            b.timestamp ≤ a.timestamp)) := by
  refine ⟨?_, ?_, ?_, ?_, ?_⟩ <;> with_unfolding_all decide

/-- Every element the retriever's scoring pass emits is a pair of the
code rank key with its record, the key is positive, and the record
comes from the user's collection. -/
theorem mem_retrieval_scored {query : String} {mems : List MemoryItem}
    {p : ℚ × MemoryItem}
    (hp : p ∈ mems.filterMap (fun m =>
      let score : ℚ := (keywordScore (pySplit (pyLower query)) (pyLower m.content) : ℚ) *
        m.importance_score
      if score > 0 then some (score, m) else none)) :
    p.1 = rankKey query p.2 ∧ 0 < p.1 ∧ p.2 ∈ mems := by
  rcases List.mem_filterMap.mp hp with ⟨m, hm, hf⟩
  simp only at hf
  split at hf
  case isTrue h =>
    cases hf
    exact ⟨rfl, h, hm⟩
  case isFalse h => cases hf

/-- C1 amended: for any per-user state the fallback search returns only
records of that user whose rank key `keyword_score * importance_score`
(the *stored base* importance, not the decayed one) is positive, sorted
descending by that key, with ties kept in the order of the stored list
(Python's sort is stable) — expressed by an arbitrary pairwise relation
`R` on the stored list — and at most `limit` records. -/
theorem fallback_search_ranked (s : MemState) (user_id query : String)
    (limit : Nat) (R : MemoryItem → MemoryItem → Prop)
    (hR : (s.memory_items user_id).Pairwise R) :
    (∀ m ∈ fallback_memory_search s user_id query limit,
        m ∈ s.memory_items user_id ∧ 0 < rankKey query m) ∧
    (fallback_memory_search s user_id query limit).Pairwise
      (fun a b => rankKey query b ≤ rankKey query a ∧
        (rankKey query a ≤ rankKey query b → R a b)) ∧
    (fallback_memory_search s user_id query limit).length ≤ limit := by
  have htot : ∀ p q : ℚ × MemoryItem, scoreLe p q = true ∨ scoreLe q p = true := by
    intro p q
    simp only [scoreLe, decide_eq_true_eq]
    exact le_total _ _
  have htr : ∀ p q r : ℚ × MemoryItem,
      scoreLe p q = true → scoreLe q r = true → scoreLe p r = true := by
    intro p q r
    simp only [scoreLe, decide_eq_true_eq]
    exact le_trans
  unfold fallback_memory_search
  simp only []
  constructor
  · intro m hm
    rcases List.mem_map.mp hm with ⟨p, hp, rfl⟩
    have hp' : p ∈ sortDesc scoreLe _ := List.take_subset _ _ hp
    have := mem_retrieval_scored (mem_sortDesc.mp hp')
    exact ⟨this.2.2, this.1 ▸ this.2.1⟩
  constructor
  · have hscored := pairwise_filterMap_of
      (f := fun m =>
        let score : ℚ := (keywordScore (pySplit (pyLower query)) (pyLower m.content) : ℚ) *
          m.importance_score
        if score > 0 then some (score, m) else none)
      (R := R) (S := fun p q => R p.2 q.2)
      (by
        intro a b hab p q hp hq
        simp only at hp hq
        split at hp
        case isTrue =>
          split at hq
          case isTrue => cases hp; cases hq; exact hab
          case isFalse => cases hq
        case isFalse => cases hp)
      hR
    have hsorted := pairwise_sortDesc htot htr hscored
    have htaken := hsorted.sublist (List.take_sublist limit _)
    refine List.pairwise_map.mpr ?_
    refine htaken.imp_of_mem ?_
    intro p q hp hq hpq
    have hp' := mem_retrieval_scored (mem_sortDesc.mp (List.take_subset _ _ hp))
    have hq' := mem_retrieval_scored (mem_sortDesc.mp (List.take_subset _ _ hq))
    rcases hpq with ⟨hqp, himp⟩
    simp only [scoreLe, decide_eq_true_eq] at hqp himp
    constructor
    · rw [← hp'.1, ← hq'.1]
      exact hqp
    · intro hle
      exact himp (by rw [hp'.1, hq'.1]; exact hle)
  · rw [List.length_map, List.length_take]
    exact min_le_left _ _

/-- Witness for the amended C1 on a concrete state (one matching
record), with `R` the trivially-true order. -/
theorem fallback_search_ranked_witness :
    (stateWithHello.memory_items "u1").Pairwise (fun _ _ => True) ∧
    ((∀ m ∈ fallback_memory_search stateWithHello "u1" "hello" 10,
        m ∈ stateWithHello.memory_items "u1" ∧ 0 < rankKey "hello" m) ∧
    (fallback_memory_search stateWithHello "u1" "hello" 10).Pairwise
      (fun a b => rankKey "hello" b ≤ rankKey "hello" a ∧
        (rankKey "hello" a ≤ rankKey "hello" b → True)) ∧
    (fallback_memory_search stateWithHello "u1" "hello" 10).length ≤ 10) :=
  ⟨by simp [stateWithHello, helloItem],
    fallback_search_ranked stateWithHello "u1" "hello" 10 (fun _ _ => True)
      (by simp [stateWithHello, helloItem])⟩

/-! ## C9: storing identical content twice -/

/-- One step of the duplicate-check loop. -/
theorem dupReason_cons (content memory_type : String) (r : MemoryItem)
    (rest : List MemoryItem) :
    dupReason content memory_type (r :: rest) =
      if pyStrip r.content = pyStrip content then some "完全重複"
      else if r.memory_type = memory_type ∧ content.length > 20 ∧
          similarity_value r.content content > 0.9 then some "類似重複（90%以上）"
      else dupReason content memory_type rest := rfl

/-- A rejected candidate: `store_memory` returns the empty sentinel and
leaves the state untouched. -/
theorem store_memory_rejected {s : MemState}
    {user_id content memory_type : String} {metadata : PyMeta} {now : Int}
    {saveOk : Bool}
    (h : (is_quality_memory s content memory_type user_id).fst = false) :
    store_memory s user_id content memory_type metadata now saveOk =
      (StoreOutcome.returned "", s) := by
  unfold store_memory
  rw [if_pos h]

/-- Inversion of the quality gate: it accepts exactly when all four
rejection rules fail. -/
theorem is_quality_memory_fst_true_iff (s : MemState)
    (content memory_type user_id : String) :
    (is_quality_memory s content memory_type user_id).fst = true ↔
      ¬ (pyStrip content).length < 5 ∧
      ¬ ((pySplit content).length = 1 ∧ content.length < 10) ∧
      dupReason content memory_type (s.memory_items user_id) = none ∧
      generic_patterns.contains (pyStrip content) = false := by
  unfold is_quality_memory
  split
  next h => simp [h]
  next h =>
    split
    next h2 => simp [h, h2]
    next h2 =>
      cases hd : dupReason content memory_type (s.memory_items user_id) with
      | some reason => simp [h, h2, hd]
      | none =>
        simp only [hd]
        split
        next hg => simp [h, h2]; simpa using hg
        next hg => simp [h, h2]; simpa using hg

/-- If the duplicate loop falls through on `l₁`, prepending `l₁` does
not change its verdict. -/
theorem dupReason_append_of_none {content memory_type : String}
    {l₁ : List MemoryItem} (l₂ : List MemoryItem)
    (h : dupReason content memory_type l₁ = none) :
    dupReason content memory_type (l₁ ++ l₂) =
      dupReason content memory_type l₂ := by
  induction l₁ with
  | nil => simp
  | cons r rest ih =>
    rw [dupReason_cons] at h
    split at h
    · exact absurd h (by simp)
    · split at h
      · exact absurd h (by simp)
      · rw [List.cons_append, dupReason_cons,
          if_neg (by assumption), if_neg (by assumption)]
        exact ih h

/-- If the duplicate loop falls through, no existing record matches the
candidate exactly (trimmed, case-sensitively). -/
theorem dupReason_none_no_exact {content memory_type : String}
    {l : List MemoryItem} (h : dupReason content memory_type l = none) :
    ∀ r ∈ l, ¬ pyStrip r.content = pyStrip content := by
  induction l with
  | nil => simp
  | cons x rest ih =>
    rw [dupReason_cons] at h
    split at h
    · exact absurd h (by simp)
    · split at h
      · exact absurd h (by simp)
      · intro r hr
        rcases List.mem_cons.mp hr with rfl | hr
        · assumption
        · exact ih h r hr

/-- When the user is below capacity, the post-admission insert returns
the new id and just appends the record to the user's collection (the
eviction pass is a no-op). -/
theorem insert_admitted_under_capacity (s : MemState) (item : MemoryItem)
    (hcap : (s.memory_items item.user_id).length < 200) :
    insert_admitted s item true =
      (StoreOutcome.returned item.id,
        { memory_items := fun u =>
            if u = item.user_id then s.memory_items item.user_id ++ [item]
            else s.memory_items u,
          db := save_memory_to_db s.db item }) := by
  simp only [insert_admitted, manage_memory_limit]
  rw [if_neg (by simp), if_pos (by simp; omega)]

/-- C9: if the user's collection is below capacity and a first store of
`content` succeeds (returns a non-empty id), then a second store of the
exact same content is rejected as an exact duplicate: it returns the
empty sentinel, leaves the state completely unchanged, and the user's
collection holds exactly one record whose trimmed content equals the
trimmed candidate. -/
theorem store_twice_idempotent (s : MemState)
    (user_id content memory_type : String) (metadata : PyMeta)
    (now now2 : Int) (saveOk2 : Bool)
    (hcap : (s.memory_items user_id).length < 200)
    (hok : (store_memory s user_id content memory_type metadata now true).fst ≠
      StoreOutcome.returned "") :
    store_memory (store_memory s user_id content memory_type metadata now true).snd
        user_id content memory_type metadata now2 saveOk2 =
      (StoreOutcome.returned "",
        (store_memory s user_id content memory_type metadata now true).snd) ∧
    ((store_memory s user_id content memory_type metadata now true).snd.memory_items
        user_id).countP
      (fun m => decide (pyStrip m.content = pyStrip content)) = 1 := by
  by_cases hq : (is_quality_memory s content memory_type user_id).fst = false
  · exact absurd (by rw [store_memory_rejected hq]) hok
  · have hq' : (is_quality_memory s content memory_type user_id).fst = true := by
      simpa using hq
    by_cases himp : calculate_importance now content memory_type metadata < 0.15
    · exact absurd (by unfold store_memory; rw [if_neg hq, if_pos himp]) hok
    · have hstore : store_memory s user_id content memory_type metadata now true =
          insert_admitted s (newMemoryItem user_id content memory_type metadata now)
            true := by
        unfold store_memory
        rw [if_neg hq, if_neg himp]
      have hins := insert_admitted_under_capacity s
        (newMemoryItem user_id content memory_type metadata now) hcap
      have hmem : (store_memory s user_id content memory_type metadata now
            true).snd.memory_items user_id =
          s.memory_items user_id ++
            [newMemoryItem user_id content memory_type metadata now] := by
        rw [hstore, hins]
        simp [newMemoryItem]
      obtain ⟨h1, h2, hdup, hgen⟩ :=
        (is_quality_memory_fst_true_iff s content memory_type user_id).mp hq'
      have hdup2 : dupReason content memory_type
          ((store_memory s user_id content memory_type metadata now
            true).snd.memory_items user_id) = some "完全重複" := by
        rw [hmem, dupReason_append_of_none _ hdup, dupReason_cons,
          if_pos (show pyStrip (newMemoryItem user_id content memory_type metadata
            now).content = pyStrip content from rfl)]
      have hgate2 : (is_quality_memory
          (store_memory s user_id content memory_type metadata now true).snd
          content memory_type user_id).fst = false := by
        unfold is_quality_memory
        rw [if_neg h1, if_neg h2]
        simp only [hdup2]
      refine ⟨store_memory_rejected hgate2, ?_⟩
      rw [hmem, List.countP_append]
      have hz : (s.memory_items user_id).countP
          (fun m => decide (pyStrip m.content = pyStrip content)) = 0 := by
        refine List.countP_eq_zero.mpr ?_
        intro r hr
        simpa using dupReason_none_no_exact hdup r hr
      rw [hz]
      simp [List.countP_cons, newMemoryItem]

/-- Witness for C9 at a concrete input: the first store of
"memo number one" succeeds, the second is rejected. -/
theorem store_twice_idempotent_witness :
    (initState.memory_items "u1").length < 200 ∧
    (store_memory initState "u1" "memo number one" "goals" none 0 true).fst ≠
      StoreOutcome.returned "" ∧
    (store_memory
        (store_memory initState "u1" "memo number one" "goals" none 0 true).snd
        "u1" "memo number one" "goals" none 1 true =
      (StoreOutcome.returned "",
        (store_memory initState "u1" "memo number one" "goals" none 0 true).snd) ∧
    ((store_memory initState "u1" "memo number one" "goals" none 0
        true).snd.memory_items "u1").countP
      (fun m => decide (pyStrip m.content = pyStrip "memo number one")) = 1) :=
  ⟨by decide, by with_unfolding_all decide,
    store_twice_idempotent initState "u1" "memo number one" "goals" none 0 1 true
      (by decide) (by with_unfolding_all decide)⟩

/-! ## C8: capacity bound and eviction of the oldest records -/

/-- The eviction pass never leaves more than `max_memories` records in
the touched user's collection. -/
theorem manage_memory_limit_length_le (s : MemState) (u : String)
    (maxm : Nat) :
    ((manage_memory_limit s u maxm).memory_items u).length ≤ maxm := by
  by_cases h : (s.memory_items u).length ≤ maxm
  · rw [show manage_memory_limit s u maxm = s from by
      simp [manage_memory_limit, h]]
    exact h
  · have hx : (manage_memory_limit s u maxm).memory_items u =
        (sortDesc evictLe (s.memory_items u)).take maxm := by
      simp [manage_memory_limit, h]
    rw [hx, List.length_take, length_sortDesc]
    exact min_le_left _ _

/-- Inserting an element that is strictly below everything lands at the
end. -/
theorem insertDesc_bottom {le_ : α → α → Bool} {x : α} :
    ∀ {l : List α}, (∀ y ∈ l, le_ y x = false) →
      insertDesc le_ x l = l ++ [x] := by
  intro l
  induction l with
  | nil => intro _; rfl
  | cons y ys ih =>
    intro h
    unfold insertDesc
    rw [if_neg (by simp [h y (List.mem_cons_self y ys)]),
      ih (fun z hz => h z (List.mem_cons_of_mem _ hz))]
    rfl

/-- Inserting an element that is above everything lands at the front. -/
theorem insertDesc_top {le_ : α → α → Bool} {x : α} {l : List α}
    (h : ∀ z ∈ l, le_ z x = true) : insertDesc le_ x l = x :: l := by
  cases l with
  | nil => rfl
  | cons y ys =>
    unfold insertDesc
    rw [if_pos (h y (List.mem_cons_self y ys))]

/-- Appending a strictly-maximal element and sorting a descending-sorted
list puts the new element in front and keeps the rest untouched. -/
theorem sortDesc_append_max {le_ : α → α → Bool} {x : α} :
    ∀ {l : List α}, l.Pairwise (fun a b => le_ b a = true) →
      (∀ y ∈ l, le_ x y = false) →
      sortDesc le_ (l ++ [x]) = x :: l := by
  intro l
  induction l with
  | nil => intro _ _; rfl
  | cons y ys ih =>
    intro hs hmax
    rcases List.pairwise_cons.mp hs with ⟨hy, hys⟩
    show insertDesc le_ y (sortDesc le_ (ys ++ [x])) = x :: y :: ys
    rw [ih hys (fun z hz => hmax z (List.mem_cons_of_mem _ hz))]
    unfold insertDesc
    rw [if_neg (by simp [hmax y (List.mem_cons_self y ys)]), insertDesc_top hy]

/-- Sorting a strictly-ascending list reverses it. -/
theorem sortDesc_of_strict_asc {le_ : α → α → Bool} :
    ∀ {l : List α}, l.Pairwise (fun a b => le_ b a = false) →
      sortDesc le_ l = l.reverse := by
  intro l
  induction l with
  | nil => intro _; rfl
  | cons y ys ih =>
    intro hs
    rcases List.pairwise_cons.mp hs with ⟨hy, hys⟩
    show insertDesc le_ y (sortDesc le_ ys) = (y :: ys).reverse
    rw [ih hys, List.reverse_cons,
      insertDesc_bottom (fun z hz => hy z (List.mem_reverse.mp hz))]

/-- The `i`-th record of the C8 scenario: 250 admissible records of
equal importance (1/2) with strictly increasing creation instants and
pairwise distinct ids. -/
def mkC8Item (i : Nat) : MemoryItem :=
  { id := String.mk (List.replicate i 'a'),
    user_id := "u8",
    content := String.mk (List.replicate (i + 5) 'b'),
    memory_type := "goals",
    importance_score := 1/2,
    timestamp := (i : Int),
    metadata := none }

/-- One post-admission insert of the C8 scenario. -/
def c8Step (s : MemState) (i : Nat) : MemState :=
  (insert_admitted s (mkC8Item i) true).snd

/-- The state after inserting the first `n` records of the C8 scenario
into an empty store. -/
def c8Run (n : Nat) : MemState :=
  (List.range n).foldl c8Step initState

/-- The C8 records with indices `lo, lo+1, …, lo+len-1`, oldest
first. -/
def ascFrom (lo len : Nat) : List MemoryItem :=
  (List.range len).map (fun k => mkC8Item (lo + k))

/-- The C8 records with indices `top, top-1, …, top-len+1`, newest
first. -/
def descFrom (top : Nat) : Nat → List MemoryItem
  | 0 => []
  | k + 1 => mkC8Item top :: descFrom (top - 1) k

/-- The ids of the C8 records are pairwise distinct. -/
theorem mkC8Item_id_inj {i j : Nat} (h : (mkC8Item i).id = (mkC8Item j).id) :
    i = j := by
  have := congrArg (fun s => s.data.length) h
  simpa [mkC8Item] using this

/-- The C8 records themselves are pairwise distinct. -/
theorem mkC8Item_inj {i j : Nat} (h : mkC8Item i = mkC8Item j) : i = j := by
  have := congrArg MemoryItem.timestamp h
  simpa [mkC8Item] using this

/-- The new C8 record never sorts (weakly) below an older one. -/
theorem evictLe_new_false {j n : Nat} (h : j < n) :
    evictLe (mkC8Item n) (mkC8Item j) = false := by
  simp only [evictLe, mkC8Item, decide_eq_false_iff_not]
  rintro (h1 | ⟨-, h2⟩)
  · exact absurd h1 (lt_irrefl _)
  · omega

/-- An older C8 record sorts (weakly) below a newer one. -/
theorem evictLe_old_true {j n : Nat} (h : j ≤ n) :
    evictLe (mkC8Item j) (mkC8Item n) = true := by
  simp only [evictLe, mkC8Item, decide_eq_true_eq]
  right
  exact ⟨by simp, by exact_mod_cast h⟩

theorem ascFrom_len_succ (lo len : Nat) :
    ascFrom lo (len + 1) = ascFrom lo len ++ [mkC8Item (lo + len)] := by
  unfold ascFrom
  rw [List.range_succ, List.map_append]
  rfl

theorem ascFrom_cons (lo len : Nat) :
    ascFrom lo (len + 1) = mkC8Item lo :: ascFrom (lo + 1) len := by
  unfold ascFrom
  rw [List.range_succ_eq_map, List.map_cons, List.map_map]
  congr 1
  refine List.map_congr_left ?_
  intro k _
  simp only [Function.comp_apply]
  exact congrArg mkC8Item (by omega)

theorem mem_ascFrom {m : MemoryItem} {lo len : Nat} (h : m ∈ ascFrom lo len) :
    ∃ k, k < len ∧ m = mkC8Item (lo + k) := by
  rcases List.mem_map.mp h with ⟨k, hk, rfl⟩
  exact ⟨k, List.mem_range.mp hk, rfl⟩

theorem length_descFrom : ∀ (k top : Nat), (descFrom top k).length = k := by
  intro k
  induction k with
  | zero => intro top; rfl
  | succ k ih => intro top; simp [descFrom, ih]

theorem mem_descFrom : ∀ {k top : Nat} {m : MemoryItem}, m ∈ descFrom top k →
    ∃ j, m = mkC8Item j ∧ j ≤ top ∧ top < j + k := by
  intro k
  induction k with
  | zero => simp [descFrom]
  | succ k ih =>
    intro top m hm
    rcases List.mem_cons.mp hm with rfl | hm
    · exact ⟨top, rfl, le_refl _, by omega⟩
    · rcases ih hm with ⟨j, rfl, hj1, hj2⟩
      exact ⟨j, rfl, by omega, by omega⟩

theorem pairwise_descFrom : ∀ (k top : Nat),
    (descFrom top k).Pairwise (fun a b => evictLe b a = true) := by
  intro k
  induction k with
  | zero => intro top; exact List.Pairwise.nil
  | succ k ih =>
    intro top
    refine List.pairwise_cons.mpr ⟨?_, ih (top - 1)⟩
    intro m hm
    rcases mem_descFrom hm with ⟨j, rfl, hj, -⟩
    exact evictLe_old_true (by omega)

theorem take_descFrom : ∀ (k j top : Nat),
    (descFrom top (k + j)).take k = descFrom top k := by
  intro k
  induction k with
  | zero => intro j top; rfl
  | succ k ih =>
    intro j top
    rw [show k + 1 + j = (k + j) + 1 from by omega]
    show (mkC8Item top :: descFrom (top - 1) (k + j)).take (k + 1) = _
    rw [List.take_succ_cons, ih j (top - 1)]
    rfl

theorem drop_descFrom : ∀ (k top : Nat),
    (descFrom top (k + 1)).drop k = [mkC8Item (top - k)] := by
  intro k
  induction k with
  | zero => intro top; rfl
  | succ k ih =>
    intro top
    rw [show k + 1 + 1 = (k + 1) + 1 from rfl]
    show (mkC8Item top :: descFrom (top - 1) (k + 1)).drop (k + 1) = _
    rw [List.drop_succ_cons, ih (top - 1), Nat.sub_sub,
      show 1 + k = k + 1 from by omega]

theorem reverse_ascFrom : ∀ (len lo : Nat),
    (ascFrom lo len).reverse = descFrom (lo + len - 1) len := by
  intro len
  induction len with
  | zero => intro lo; rfl
  | succ len ih =>
    intro lo
    rw [ascFrom_len_succ, List.reverse_append, ih lo]
    show mkC8Item (lo + len) :: descFrom (lo + len - 1) len = _
    rw [show lo + (len + 1) - 1 = lo + len from by omega]
    rfl

theorem pairwise_ascFrom (lo len : Nat) :
    (ascFrom lo len).Pairwise (fun a b => evictLe b a = false) := by
  refine List.pairwise_map.mpr ?_
  refine (List.pairwise_lt_range len).imp ?_
  intro a b hab
  exact evictLe_new_false (by omega)

theorem mkC8Item_user (i : Nat) : (mkC8Item i).user_id = "u8" := rfl

/-- Deleting the id of a record not in an `ascFrom` segment leaves it
unchanged. -/
theorem filter_ascFrom (lo len n : Nat) (h : ∀ k, k < len → lo + k ≠ n) :
    (ascFrom lo len).filter (fun x => x.id ≠ (mkC8Item n).id) =
      ascFrom lo len := by
  refine List.filter_eq_self.mpr ?_
  intro m hm
  rcases mem_ascFrom hm with ⟨k, hk, rfl⟩
  simp only [ne_eq, decide_eq_true_eq]
  intro hid
  exact h k hk (mkC8Item_id_inj hid)

/-- Writing a fresh id to the database is a plain append. -/
theorem save_ascFrom (lo len n : Nat) (h : ∀ k, k < len → lo + k ≠ n) :
    save_memory_to_db (ascFrom lo len) (mkC8Item n) =
      ascFrom lo len ++ [mkC8Item n] := by
  unfold save_memory_to_db
  rw [filter_ascFrom lo len n h]

theorem c8Run_succ (n : Nat) : c8Run (n + 1) = c8Step (c8Run n) n := by
  unfold c8Run
  rw [List.range_succ, List.foldl_append]
  rfl

/-- A C8 insert below capacity appends in memory and in the database. -/
theorem c8Step_under (s : MemState) (i : Nat)
    (h : (s.memory_items "u8").length < 200) :
    (c8Step s i).memory_items "u8" = s.memory_items "u8" ++ [mkC8Item i] ∧
    (c8Step s i).db = save_memory_to_db s.db (mkC8Item i) := by
  unfold c8Step
  rw [insert_admitted_under_capacity s (mkC8Item i) h]
  exact ⟨by simp [mkC8Item_user], rfl⟩

/-- A C8 insert at capacity appends, sorts, keeps the top 200 and
deletes the dropped records from the database. -/
theorem c8Step_at_capacity (s : MemState) (i : Nat)
    (h : (s.memory_items "u8").length = 200) :
    (c8Step s i).memory_items "u8" =
      (sortDesc evictLe (s.memory_items "u8" ++ [mkC8Item i])).take 200 ∧
    (c8Step s i).db =
      ((sortDesc evictLe (s.memory_items "u8" ++ [mkC8Item i])).drop 200).foldl
        (fun d r => d.filter (fun x => x.id ≠ r.id))
        (save_memory_to_db s.db (mkC8Item i)) := by
  unfold c8Step insert_admitted
  rw [if_neg (by simp)]
  simp only [manage_memory_limit, mkC8Item_user]
  rw [if_neg (by simp [mkC8Item_user, h])]
  exact ⟨by simp [mkC8Item_user], by simp [mkC8Item_user]⟩

/-- Before capacity is reached (the first 200 inserts) the store and
the database simply accumulate the records in insertion order. -/
theorem c8Run_phase1 : ∀ n, n ≤ 200 →
    (c8Run n).memory_items "u8" = ascFrom 0 n ∧ (c8Run n).db = ascFrom 0 n := by
  intro n
  induction n with
  | zero => intro _; exact ⟨rfl, rfl⟩
  | succ n ih =>
    intro hn
    obtain ⟨h1, h2⟩ := ih (by omega)
    have hlen : ((c8Run n).memory_items "u8").length < 200 := by
      rw [h1]
      simp only [ascFrom, List.length_map, List.length_range]
      omega
    obtain ⟨g1, g2⟩ := c8Step_under (c8Run n) n hlen
    rw [c8Run_succ]
    constructor
    · rw [g1, h1, ascFrom_len_succ]
      simp
    · rw [g2, h2, save_ascFrom 0 n n (by omega), ascFrom_len_succ]
      simp

/-- After capacity is reached, the store holds the 200 newest records
(newest first, the in-place sort leaves them in descending order) and
the database holds the same 200 records in insertion order. -/
theorem c8Run_phase2 : ∀ n, 200 ≤ n →
    (c8Run (n + 1)).memory_items "u8" = descFrom n 200 ∧
    (c8Run (n + 1)).db = ascFrom (n - 199) 200 := by
  intro n
  induction n with
  | zero => intro h; omega
  | succ n ih =>
    intro hn
    rcases Nat.lt_or_ge 200 (n + 1) with hgt | hle
    · -- inductive step: n ≥ 200
      have hn' : 200 ≤ n := by omega
      obtain ⟨h1, h2⟩ := ih hn'
      have hlen : ((c8Run (n + 1)).memory_items "u8").length = 200 := by
        rw [h1, length_descFrom]
      obtain ⟨g1, g2⟩ := c8Step_at_capacity (c8Run (n + 1)) (n + 1) hlen
      have hsort : sortDesc evictLe
          ((c8Run (n + 1)).memory_items "u8" ++ [mkC8Item (n + 1)]) =
          descFrom (n + 1) 201 := by
        rw [h1, sortDesc_append_max (pairwise_descFrom 200 n) ?_]
        · show mkC8Item (n + 1) :: descFrom n 200 =
            mkC8Item (n + 1) :: descFrom (n + 1 - 1) 200
          simp
        · intro y hy
          rcases mem_descFrom hy with ⟨j, rfl, hj, -⟩
          exact evictLe_new_false (by omega)
      rw [c8Run_succ]
      constructor
      · rw [g1, hsort, show (201 : Nat) = 200 + 1 from rfl,
          take_descFrom 200 1 (n + 1)]
      · rw [g2, hsort, show (201 : Nat) = 200 + 1 from rfl,
          drop_descFrom 200 (n + 1), h2,
          save_ascFrom (n - 199) 200 (n + 1) (by omega)]
        simp only [List.foldl_cons, List.foldl_nil]
        rw [show n + 1 - 200 = n - 199 from by omega,
          show ascFrom (n - 199) 200 =
            mkC8Item (n - 199) :: ascFrom (n - 199 + 1) 199 from
            ascFrom_cons (n - 199) 199,
          List.filter_append, List.filter_cons, if_neg (by simp),
          filter_ascFrom (n - 199 + 1) 199 (n - 199) (by omega),
          List.filter_cons, if_pos (by
            simp only [ne_eq, decide_eq_true_eq]
            intro hid
            have := mkC8Item_id_inj hid
            omega),
          List.filter_nil,
          show ascFrom (n + 1 - 199) 200 =
            ascFrom (n + 1 - 199) 199 ++ [mkC8Item (n + 1 - 199 + 199)] from
            ascFrom_len_succ (n + 1 - 199) 199,
          show n + 1 - 199 + 199 = n + 1 from by omega,
          show n + 1 - 199 = n - 199 + 1 from by omega]
    · -- base step: n + 1 = 200, the first eviction
      have hn199 : n = 199 := by omega
      subst hn199
      rw [show (199 : Nat) + 1 = 200 from rfl]
      have h1 := c8Run_phase1 200 (le_refl _)
      have hlen : ((c8Run 200).memory_items "u8").length = 200 := by
        rw [h1.1]
        simp [ascFrom]
      obtain ⟨g1, g2⟩ := c8Step_at_capacity (c8Run 200) 200 hlen
      have hsort : sortDesc evictLe
          ((c8Run 200).memory_items "u8" ++ [mkC8Item 200]) =
          descFrom 200 201 := by
        rw [h1.1,
          show ascFrom 0 200 ++ [mkC8Item 200] = ascFrom 0 201 from by
            rw [show (201 : Nat) = 200 + 1 from rfl, ascFrom_len_succ 0 200],
          sortDesc_of_strict_asc (pairwise_ascFrom 0 201),
          reverse_ascFrom 201 0]
      constructor
      · rw [c8Run_succ, g1, hsort, show (201 : Nat) = 200 + 1 from rfl,
          take_descFrom 200 1 200]
      · rw [c8Run_succ, g2, hsort, show (201 : Nat) = 200 + 1 from rfl,
          drop_descFrom 200 200, show (200 : Nat) - 200 = 0 from rfl, h1.2,
          save_ascFrom 0 200 200 (by omega)]
        simp only [List.foldl_cons, List.foldl_nil]
        rw [show ascFrom 0 200 ++ [mkC8Item 200] = ascFrom 0 (200 + 1) from by
            rw [ascFrom_len_succ 0 200],
          ascFrom_cons 0 200,
          List.filter_cons, if_neg (by simp),
          filter_ascFrom (0 + 1) 200 0 (by omega)]

/-- C8: (i) after any eviction pass the touched user's record count is
at most the configured capacity; (ii) inserting the 250 admissible
equal-importance records `mkC8Item 0, …, mkC8Item 249` into an empty
store leaves exactly the 200 newest (`mkC8Item 50 … mkC8Item 249`) —
newest first in memory, insertion order in the database — and each of
the 50 oldest is absent from both the in-memory collection and the
database. -/
theorem capacity_bound_and_oldest_evicted :
    (∀ (s : MemState) (u : String) (maxm : Nat),
        ((manage_memory_limit s u maxm).memory_items u).length ≤ maxm) ∧
    (c8Run 250).memory_items "u8" = descFrom 249 200 ∧
    ((c8Run 250).memory_items "u8").length = 200 ∧
    (c8Run 250).db = ascFrom 50 200 ∧
    (∀ i, i < 50 →
      mkC8Item i ∉ (c8Run 250).memory_items "u8" ∧
      mkC8Item i ∉ (c8Run 250).db) := by
  have hrun := c8Run_phase2 249 (by omega)
  have hmem : (c8Run 250).memory_items "u8" = descFrom 249 200 := by
    have h := hrun.1
    rwa [show (249 : Nat) + 1 = 250 from rfl] at h
  have hdb : (c8Run 250).db = ascFrom 50 200 := by
    have h := hrun.2
    rwa [show (249 : Nat) + 1 = 250 from rfl,
      show (249 : Nat) - 199 = 50 from rfl] at h
  refine ⟨manage_memory_limit_length_le, hmem, ?_, hdb, ?_⟩
  · rw [hmem, length_descFrom]
  · intro i hi
    constructor
    · rw [hmem]
      intro hcon
      rcases mem_descFrom hcon with ⟨j, hjeq, hj1, hj2⟩
      have := mkC8Item_inj hjeq
      omega
    · rw [hdb]
      intro hcon
      rcases mem_ascFrom hcon with ⟨k, hk, hkeq⟩
      have := mkC8Item_inj hkeq
      omega

/-- Witness for C8: record 3 (one of the 50 oldest) is gone from both
the in-memory collection and the database after the 250 inserts. -/
theorem capacity_bound_and_oldest_evicted_witness :
    (3 : Nat) < 50 ∧
    (mkC8Item 3 ∉ (c8Run 250).memory_items "u8" ∧
      mkC8Item 3 ∉ (c8Run 250).db) :=
  ⟨by decide, capacity_bound_and_oldest_evicted.2.2.2.2 3 (by decide)⟩
